import Mathlib

/-!
Verification of the ICE40 FPGA configuration sequencer
(`src/components/ice40/fpga_loader.c`, `src/components/ice40/master_spi.c`).

The C code is shallowly embedded: every externally visible action of the
sequencer (GPIO writes, SPI device registration, bus acquisition, SPI
transactions, CDONE samples, buffer allocation) is recorded as an `Event` in
a trace, and the results of the external primitives (SPI driver calls, the
allocator, the CDONE pin level, the FreeRTOS tick progression) are supplied
by an environment record `Env`.  Machine integers are modelled as `Nat`/`Int`
(no value in this module approaches an overflow boundary: sizes are `size_t`
counts bounded by the bitstream length, and `esp_err_t` is a plain `int`
status code).
-/

namespace Ice40

/-! ### `esp_err_t` status codes (esp_err.h) -/

def ESP_OK : Int := 0
def ESP_FAIL : Int := -1
def ESP_ERR_NO_MEM : Int := 0x101
def ESP_ERR_INVALID_ARG : Int := 0x102
def ESP_ERR_NOT_FOUND : Int := 0x105
def ESP_ERR_TIMEOUT : Int := 0x107

/-- The two output control pins driven by the sequencer:
`CONFIG_FPGA_CRESET_GPIO` and `CONFIG_FPGA_CS_GPIO`. -/
inductive Pin where
  | creset
  | cs
  deriving DecidableEq, Repr

/-- One externally visible action of `fpga_loader_load`, in program order. -/
inductive Event where
  /-- `spi_bus_add_device` (update_spi_device_add) -/
  | deviceAdd
  /-- `spi_bus_remove_device` (update_spi_device_remove) -/
  | deviceRemove
  /-- `spi_device_acquire_bus` -/
  | busAcquire
  /-- `spi_device_release_bus` -/
  | busRelease
  /-- `gpio_set_level` on a control pin -/
  | gpioSet (p : Pin) (level : Bool)
  /-- `gpio_matrix_out(CS, SIG_GPIO_OUT_IDX, ...)`: manual CS routing -/
  | csRouteManual
  /-- `gpio_matrix_out(CS, FSPICS0_OUT_IDX, ...)`: hardware CS routing -/
  | csRouteHardware
  /-- `vTaskDelay` (argument as in the source, ticks or ms-derived ticks) -/
  | delayTicks (n : Nat)
  /-- `xSemaphoreTake(master_spi_semaphore, portMAX_DELAY)` -/
  | semTake
  /-- `xSemaphoreGive(master_spi_semaphore)` -/
  | semGive
  /-- `spi_device_transmit` of the given payload bytes -/
  | transmit (bytes : List Nat)
  /-- one `source->read` call: bytes requested and bytes reported back -/
  | sourceRead (requested got : Nat)
  /-- one `gpio_get_level(CONFIG_FPGA_CDONE_GPIO)` sample -/
  | sample (level : Bool)
  /-- `heap_caps_malloc` of the transfer buffer succeeded -/
  | bufferAlloc
  /-- `heap_caps_free` of the transfer buffer -/
  | bufferFree
  deriving DecidableEq, Repr

/-- Results of the external primitives consumed by one `fpga_loader_load`
call.  Each call site of a fallible primitive draws its result from its own
field, and the CDONE pin is a sampled input.  `cdoneTimeoutAt` abstracts the
FreeRTOS tick progression of `cdone_pin_wait`: `xTaskGetTickCount` is
monotone, so the deadline test `now > timeout` is false for every poll
iteration before some first index and true from that index on. -/
structure Env where
  /-- result of `spi_bus_add_device` -/
  addResult : Int
  /-- result of `spi_device_acquire_bus` -/
  acquireResult : Int
  /-- result of `spi_device_transmit` for the step-6 dummy byte -/
  dummyResult : Int
  /-- result of `spi_device_transmit` for the i-th bitstream chunk -/
  chunkResult : Nat → Int
  /-- result of `spi_device_transmit` for the step-8 completion padding -/
  padCompResult : Int
  /-- result of `spi_device_transmit` for the step-9 activation padding -/
  padActResult : Int
  /-- whether `heap_caps_malloc(LOADER_BUFFER_SIZE, MALLOC_CAP_DMA)` succeeds -/
  allocOk : Bool
  /-- contents of the freshly allocated (uninitialised) DMA buffer -/
  initialBuf : List Nat
  /-- CDONE level read at the i-th poll iteration of `cdone_pin_wait` -/
  cdoneSample : Nat → Bool
  /-- first poll iteration at which `xTaskGetTickCount() > timeout` holds -/
  cdoneTimeoutAt : Nat

/-- `#define LOADER_BUFFER_SIZE (CONFIG_FPGA_SPI_BUFFER_SIZE * 4)`.
`CONFIG_FPGA_SPI_BUFFER_SIZE` is a Kconfig deployment constant, kept as the
parameter `cfg`. -/
def LOADER_BUFFER_SIZE (cfg : Nat) : Nat := cfg * 4

/-- `firmware_source_t`: total length plus a read callback.  The C `void
*ctx` cursor state is the type parameter `S`; `read n s` returns the byte
count the callback reports, the bytes it wrote into the buffer, and the
updated cursor state. -/
structure firmware_source_t (S : Type) where
  size : Nat
  read : Nat → S → (Nat × List Nat) × S

/-- `memcpy(buffer, data, data.length)`: overwrite the front of `buffer`
with `data`, keeping the rest.  Length-preserving. -/
def overlay (data buf : List Nat) : List Nat :=
  data.take buf.length ++ buf.drop data.length

/-- `write_update_block`: reject blocks larger than the transfer buffer,
otherwise take the bus semaphore, transmit `length` bytes from `buffer`
(`trans.length = length * 8` clock edges), release the semaphore, and
return the transmit result `txRes` supplied by the environment. -/
def write_update_block (SIZE : Nat) (buffer : List Nat) (length : Nat)
    (txRes : Int) : Int × List Event :=
  if SIZE < length then (ESP_FAIL, [])
  else (txRes, [Event.semTake, Event.transmit (buffer.take length), Event.semGive])

/-- The poll loop of `cdone_pin_wait`: at iteration `i` sample the pin; if
it reads `value`, return `ESP_OK`; otherwise, if the deadline has passed
(`remainingPolls = 0`, i.e. `i` has reached the first iteration whose
`xTaskGetTickCount() > timeout` test fires), return `ESP_ERR_TIMEOUT`;
otherwise `vTaskDelay(1)` and poll again. -/
def cdone_go (sampleAt : Nat → Bool) (value : Bool) :
    Nat → Nat → Int × List Event
  | 0, i =>
    if sampleAt i = value then (ESP_OK, [Event.sample (sampleAt i)])
    else (ESP_ERR_TIMEOUT, [Event.sample (sampleAt i)])
  | n + 1, i =>
    if sampleAt i = value then (ESP_OK, [Event.sample (sampleAt i)])
    else
      let r := cdone_go sampleAt value n (i + 1)
      (r.1, Event.sample (sampleAt i) :: r.2)

/-- `cdone_pin_wait(value, timeout_ms)`: poll CDONE from iteration 0 until
it reads `value` or the tick deadline passes. -/
def cdone_pin_wait (sampleAt : Nat → Bool) (value : Bool) (timeoutAt : Nat) :
    Int × List Event :=
  cdone_go sampleAt value timeoutAt 0

/-- The step-7 streaming loop of `fpga_loader_load`: while bytes remain,
request `chunk = min remaining LOADER_BUFFER_SIZE` bytes from the source;
on a short read set `ret = ESP_FAIL` and break without transmitting; else
transmit the chunk; on a transmit error break; else subtract and repeat.
`fuel` bounds the iteration count structurally; the caller passes
`fuel = remaining`, which suffices because every iteration consumes at
least one byte (`SIZE ≥ 1` whenever the loop is reached, since the step-6
one-byte dummy write succeeded). -/
def stream_chunks {S : Type} (SIZE : Nat)
    (rd : Nat → S → (Nat × List Nat) × S) (txRes : Nat → Int) :
    Nat → Nat → S → List Nat → Nat → Int × List Event × List Nat
  | 0, _, _, buf, _ => (ESP_OK, [], buf)
  | fuel + 1, i, s, buf, remaining =>
    if remaining = 0 then (ESP_OK, [], buf)
    else
      let chunk := min remaining SIZE
      let rres := rd chunk s
      let got := rres.1.1
      if got ≠ chunk then
        (ESP_FAIL, [Event.sourceRead chunk got], buf)
      else
        let buf2 := overlay rres.1.2 buf
        let w := write_update_block SIZE buf2 chunk (txRes i)
        if w.1 ≠ ESP_OK then
          (w.1, Event.sourceRead chunk got :: w.2, buf2)
        else
          let rest := stream_chunks SIZE rd txRes fuel (i + 1) rres.2 buf2 (remaining - chunk)
          (rest.1, Event.sourceRead chunk got :: (w.2 ++ rest.2.1), rest.2.2)

/-- `fpga_loader_load`: the full configuration session, returning the
`esp_err_t` result and the trace of external actions.

Mirrors the source exactly, including its two quirks:
* after the streaming loop, step 8 onward run unconditionally (no `goto`
  after a streaming `break`), so the completion/activation padding is
  transmitted even after a read or transmit error; and
* `ret` is reassigned from `cdone_pin_wait` at line 172, so on every path
  that reaches step 8 the returned value is the CDONE poll result — the
  `ESP_FAIL` stored at a streaming `break` is dead. -/
def fpga_loader_load {S : Type} (cfg : Nat) (source : firmware_source_t S)
    (s0 : S) (env : Env) : Int × List Event :=
  let SIZE := LOADER_BUFFER_SIZE cfg
  -- update_spi_device_add
  if env.addResult ≠ ESP_OK then
    (env.addResult, [Event.deviceAdd])
  -- spi_device_acquire_bus; on failure goto cleanup_device
  else if env.acquireResult ≠ ESP_OK then
    (env.acquireResult, [Event.deviceAdd, Event.busAcquire, Event.deviceRemove])
  else
    -- steps 1-6: CRESET low, CS low + manual routing, waits, CRESET high, CS high
    let pre : List Event :=
      [Event.deviceAdd, Event.busAcquire,
       Event.gpioSet Pin.creset false,
       Event.gpioSet Pin.cs false, Event.csRouteManual,
       Event.delayTicks 1,
       Event.gpioSet Pin.creset true, Event.delayTicks 2,
       Event.gpioSet Pin.cs true]
    -- step 6: one zero dummy byte (8 clocks); on failure goto cleanup_bus
    let d := write_update_block SIZE [0] 1 env.dummyResult
    if d.1 ≠ ESP_OK then
      (d.1, pre ++ d.2 ++ [Event.busRelease, Event.deviceRemove])
    -- step 7: allocate the DMA transfer buffer; on failure goto cleanup_bus
    else if env.allocOk = false then
      (ESP_ERR_NO_MEM,
       pre ++ d.2 ++ [Event.gpioSet Pin.cs false, Event.busRelease, Event.deviceRemove])
    else
      -- streaming loop (its dead `ret` is discarded, as at line 172)
      let st := stream_chunks SIZE source.read env.chunkResult source.size 0 s0
        env.initialBuf source.size
      -- step 8: CS high, memset buffer to zero, 13 bytes = 104 clocks
      let zbuf : List Nat := List.replicate SIZE 0
      let pc := write_update_block SIZE zbuf 13 env.padCompResult
      -- wait for CDONE (result becomes the final ret)
      let c := cdone_pin_wait env.cdoneSample true env.cdoneTimeoutAt
      -- step 9: 7 bytes = 56 clocks, result discarded
      let pa := write_update_block SIZE zbuf 7 env.padActResult
      -- step 10: CS high, hardware routing; free buffer; cleanup_bus; cleanup_device
      (c.1,
       pre ++ d.2 ++ [Event.gpioSet Pin.cs false, Event.bufferAlloc]
         ++ st.2.1
         ++ [Event.gpioSet Pin.cs true] ++ pc.2 ++ c.2 ++ pa.2
         ++ [Event.gpioSet Pin.cs true, Event.csRouteHardware, Event.bufferFree,
             Event.busRelease, Event.deviceRemove])

/-! ### ROM source (`rom_ctx_t`, `rom_read`, `fpga_loader_load_from_rom`) -/

/-- `rom_ctx_t`: a fixed byte range with a cursor.  `data` are the bytes of
the ROM region the `data` pointer addresses (the region holds `size` bytes
by construction of `fpga_loader_load_from_rom`). -/
structure rom_ctx_t where
  data : List Nat
  size : Nat
  pos : Nat
  deriving DecidableEq, Repr

/-- `rom_read`: if the request would run past the end of the range, return
0 bytes and leave the cursor unchanged; otherwise copy exactly `size`
bytes from the cursor and advance it. -/
def rom_read (size : Nat) (rom : rom_ctx_t) : (Nat × List Nat) × rom_ctx_t :=
  if rom.size < rom.pos + size then ((0, []), rom)
  else ((size, (rom.data.drop rom.pos).take size), { rom with pos := rom.pos + size })

/-- `fpga_bin_t`: two linker-symbol addresses delimiting an embedded
bitstream, plus the ROM bytes in `[startAddr, endAddr)` that the pointers
address (the C field `end` is a Lean keyword, hence `endAddr`). -/
structure fpga_bin_t where
  startAddr : Nat
  endAddr : Nat
  content : List Nat
  deriving Repr

/-- `fpga_loader_load_from_rom`: reject a null descriptor or a range with
`end <= start` as `ESP_ERR_INVALID_ARG`, otherwise run the full load with a
`rom_read` source of `end - start` bytes. -/
def fpga_loader_load_from_rom (cfg : Nat) (env : Env) (bin : Option fpga_bin_t) :
    Int × List Event :=
  match bin with
  | none => (ESP_ERR_INVALID_ARG, [])
  | some b =>
    if b.endAddr ≤ b.startAddr then (ESP_ERR_INVALID_ARG, [])
    else
      let ctx : rom_ctx_t := { data := b.content, size := b.endAddr - b.startAddr, pos := 0 }
      let source : firmware_source_t rom_ctx_t := { size := ctx.size, read := rom_read }
      fpga_loader_load cfg source ctx env

/-! ### File source (`file_read`, `fpga_loader_load_from_file`) -/

/-- The filesystem as seen by `fpga_loader_load_from_file`: the `stat`
result for the given path (`none` = stat failed), whether `fopen` succeeds,
and the `(count, bytes)` result of the i-th `fread` call. -/
structure FileSys where
  statSize : Option Nat
  fopenOk : Bool
  freadAt : Nat → Nat → Nat × List Nat

/-- `file_read`: forward to `fread`; short reads are propagated as-is.
The cursor state is the sequential call index. -/
def file_read (fs : FileSys) (size : Nat) (i : Nat) : (Nat × List Nat) × Nat :=
  (fs.freadAt i size, i + 1)

/-- `fpga_loader_load_from_file`: `stat` failure is `ESP_ERR_NOT_FOUND`,
`fopen` failure is `ESP_FAIL`; otherwise run the full load with the file's
`st_size` as the source length.  There is no emptiness or well-formedness
check on the file itself. -/
def fpga_loader_load_from_file (cfg : Nat) (env : Env) (fs : FileSys) :
    Int × List Event :=
  match fs.statSize with
  | none => (ESP_ERR_NOT_FOUND, [])
  | some sz =>
    if fs.fopenOk = false then (ESP_FAIL, [])
    else
      let source : firmware_source_t Nat := { size := sz, read := file_read fs }
      fpga_loader_load cfg source 0 env

/-! ### Bus arbiter (`master_spi_semaphore`)

`master_spi_init` creates `master_spi_semaphore` with
`xSemaphoreCreateMutex`, and every SPI transaction wraps itself in
`xSemaphoreTake(master_spi_semaphore, portMAX_DELAY)` /
`xSemaphoreGive(master_spi_semaphore)` (see `write_update_block` and the
steady-state users).

Modelled from the spec: the FreeRTOS mutex primitive itself is not part of
this repository, so its acquire/release semantics are taken from §4.3 of
the specification ("`acquire()` (blocking, unbounded) and `release()`
... only one holder at a time"): a task blocked in `acquire` is granted the
token only when no task holds it.  Tasks are the interleaved callers
(configuration sequencer and application transactions). -/

/-- Where one caller of the arbiter stands: not interacting, blocked in
`acquire`, or holding the token. -/
inductive TaskPhase where
  | idle
  | waiting
  | holding
  deriving DecidableEq, Repr

/-- Global state of the arbiter: whether the token is held, and the phase
of each caller. -/
structure ArbState where
  held : Bool
  tasks : List TaskPhase
  deriving DecidableEq, Repr

/-- Number of callers currently holding the token. -/
def countHolding (s : ArbState) : Nat :=
  s.tasks.countP (fun p => decide (p = TaskPhase.holding))

/-- Interleaved steps: a caller starts blocking in `acquire`; a blocked
caller is granted the token, but only while no caller holds it; a holder
calls `release`. -/
inductive ArbStep : ArbState → ArbState → Prop where
  | request (s : ArbState) (i : Nat) (h : s.tasks[i]? = some TaskPhase.idle) :
      ArbStep s { held := s.held, tasks := s.tasks.set i TaskPhase.waiting }
  | grant (s : ArbState) (i : Nat) (h : s.tasks[i]? = some TaskPhase.waiting)
      (hfree : s.held = false) :
      ArbStep s { held := true, tasks := s.tasks.set i TaskPhase.holding }
  | release (s : ArbState) (i : Nat) (h : s.tasks[i]? = some TaskPhase.holding) :
      ArbStep s { held := false, tasks := s.tasks.set i TaskPhase.idle }

/-- States reachable from the post-`master_spi_init` state: token free,
`n` callers idle. -/
inductive ArbReachable (n : Nat) : ArbState → Prop where
  | init : ArbReachable n { held := false, tasks := List.replicate n TaskPhase.idle }
  | step {s t : ArbState} : ArbReachable n s → ArbStep s t → ArbReachable n t

/-! ### Trace helpers and concrete fixtures -/

/-- The byte lengths of the SPI transactions in a trace, in order. -/
def txLens : List Event → List Nat
  | [] => []
  | Event.transmit bs :: rest => bs.length :: txLens rest
  | _ :: rest => txLens rest

/-- An environment in which every external primitive succeeds and CDONE
reads high at the first poll. -/
def envAllOk : Env :=
  { addResult := ESP_OK, acquireResult := ESP_OK, dummyResult := ESP_OK,
    chunkResult := fun _ => ESP_OK, padCompResult := ESP_OK, padActResult := ESP_OK,
    allocOk := true, initialBuf := List.replicate 16 0,
    cdoneSample := fun _ => true, cdoneTimeoutAt := 3 }

/-- A source that reports 100 bytes but whose read callback hands back only
10 of the 16 bytes requested for the first chunk. -/
def shortSrc : firmware_source_t Unit :=
  { size := 100, read := fun _ _ => ((10, List.replicate 10 1), ()) }

/-- A 5-byte ROM range with the cursor at the start. -/
def romWide : rom_ctx_t := { data := [1, 2, 3, 4, 5], size := 5, pos := 0 }

/-- A descriptor whose start and end linker symbols coincide (empty range). -/
def binEmpty : fpga_bin_t := { startAddr := 4096, endAddr := 4096, content := [] }

/-- An existing but empty file: `stat` succeeds with size 0, `fopen` succeeds. -/
def fsEmpty : FileSys :=
  { statSize := some 0, fopenOk := true, freadAt := fun _ _ => (0, []) }

/-- A zero-length source whose callback returns whatever is requested. -/
def srcNil : firmware_source_t Unit :=
  { size := 0, read := fun n _ => ((n, List.replicate n 0), ()) }

/-- A 6-byte source whose callback returns exactly what is requested. -/
def srcSix : firmware_source_t Unit :=
  { size := 6, read := fun n _ => ((n, List.replicate n 9), ()) }

/-- All primitives succeed but CDONE never asserts within the poll window. -/
def envTimeout : Env :=
  { addResult := ESP_OK, acquireResult := ESP_OK, dummyResult := ESP_OK,
    chunkResult := fun _ => ESP_OK, padCompResult := ESP_OK, padActResult := ESP_OK,
    allocOk := true, initialBuf := List.replicate 16 0,
    cdoneSample := fun _ => false, cdoneTimeoutAt := 2 }

/-- All primitives succeed, CDONE high, 8-byte buffer (cfg = 2). -/
def envSmall : Env :=
  { addResult := ESP_OK, acquireResult := ESP_OK, dummyResult := ESP_OK,
    chunkResult := fun _ => ESP_OK, padCompResult := ESP_OK, padActResult := ESP_OK,
    allocOk := true, initialBuf := List.replicate 8 0,
    cdoneSample := fun _ => true, cdoneTimeoutAt := 3 }

/-- All primitives succeed, CDONE high, 4-byte buffer (cfg = 1). -/
def envFour : Env :=
  { addResult := ESP_OK, acquireResult := ESP_OK, dummyResult := ESP_OK,
    chunkResult := fun _ => ESP_OK, padCompResult := ESP_OK, padActResult := ESP_OK,
    allocOk := true, initialBuf := List.replicate 4 0,
    cdoneSample := fun _ => true, cdoneTimeoutAt := 3 }

/-! ### Helper lemmas -/

theorem wub_fst (S : Nat) (b : List Nat) (l : Nat) (r : Int) :
    (write_update_block S b l r).1 = if S < l then ESP_FAIL else r := by
  unfold write_update_block
  split <;> rfl

theorem wub_events (S : Nat) (b : List Nat) (l : Nat) (r : Int) :
    (write_update_block S b l r).2 =
      if S < l then []
      else [Event.semTake, Event.transmit (b.take l), Event.semGive] := by
  unfold write_update_block
  split <;> rfl

theorem overlay_length (d b : List Nat) : (overlay d b).length = b.length := by
  simp [overlay]
  omega

/-- If the CDONE poll returns `ESP_OK`, its last pin sample read `value`. -/
theorem cdone_go_ok (sampleAt : Nat → Bool) (value : Bool) :
    ∀ n i, (cdone_go sampleAt value n i).1 = ESP_OK →
      ∃ pre, (cdone_go sampleAt value n i).2 = pre ++ [Event.sample value] := by
  intro n
  induction n with
  | zero =>
    intro i h
    by_cases hs : sampleAt i = value
    · exact ⟨[], by simp [cdone_go, hs]⟩
    · simp only [cdone_go, if_neg hs] at h
      exact absurd h (by decide)
  | succ n ih =>
    intro i h
    by_cases hs : sampleAt i = value
    · exact ⟨[], by simp [cdone_go, hs]⟩
    · simp only [cdone_go, if_neg hs] at h ⊢
      obtain ⟨pre, hp⟩ := ih (i + 1) h
      exact ⟨Event.sample (sampleAt i) :: pre, by simp [hp]⟩

/-- If the pin reads low at every poll up to the deadline iteration, the
CDONE poll returns `ESP_ERR_TIMEOUT`. -/
theorem cdone_go_timeout (sampleAt : Nat → Bool) :
    ∀ n i, (∀ j, i ≤ j → j ≤ i + n → sampleAt j = false) →
      (cdone_go sampleAt true n i).1 = ESP_ERR_TIMEOUT := by
  intro n
  induction n with
  | zero =>
    intro i h
    have hs : sampleAt i = false := h i le_rfl (by omega)
    simp [cdone_go, hs]
  | succ n ih =>
    intro i h
    have hs : sampleAt i = false := h i le_rfl (by omega)
    have hrec := ih (i + 1) (fun j h1 h2 => h j (by omega) (by omega))
    simp [cdone_go, hs, hrec]

/-- Every event the CDONE poll emits is a pin sample. -/
theorem cdone_go_samples (sampleAt : Nat → Bool) (value : Bool) :
    ∀ n i, ∀ e ∈ (cdone_go sampleAt value n i).2, ∃ b, e = Event.sample b := by
  intro n
  induction n with
  | zero =>
    intro i e he
    by_cases hs : sampleAt i = value <;> simp [cdone_go, hs] at he <;> exact ⟨_, he⟩
  | succ n ih =>
    intro i e he
    by_cases hs : sampleAt i = value
    · simp [cdone_go, hs] at he
      exact ⟨_, he⟩
    · simp only [cdone_go, if_neg hs, List.mem_cons] at he
      rcases he with he | he
      · exact ⟨_, he⟩
      · exact ih (i + 1) e he

/-- Once device registration, bus acquisition, the dummy byte and the
buffer allocation have succeeded, `fpga_loader_load` returns the CDONE
poll result and its trace decomposes into the fixed Reset/DummySelect
prologue, the streaming events, the completion padding, the CDONE samples,
the activation padding and the fixed hand-off epilogue. -/
theorem load_decomp {S : Type} (cfg : Nat) (src : firmware_source_t S) (s0 : S) (env : Env)
    (hadd : env.addResult = ESP_OK) (hacq : env.acquireResult = ESP_OK)
    (hdum : env.dummyResult = ESP_OK) (hS : 1 ≤ LOADER_BUFFER_SIZE cfg)
    (halloc : env.allocOk = true) :
    fpga_loader_load cfg src s0 env =
      ((cdone_pin_wait env.cdoneSample true env.cdoneTimeoutAt).1,
       ([Event.deviceAdd, Event.busAcquire,
         Event.gpioSet Pin.creset false, Event.gpioSet Pin.cs false, Event.csRouteManual,
         Event.delayTicks 1, Event.gpioSet Pin.creset true, Event.delayTicks 2,
         Event.gpioSet Pin.cs true, Event.semTake, Event.transmit [0], Event.semGive,
         Event.gpioSet Pin.cs false, Event.bufferAlloc]
        ++ (stream_chunks (LOADER_BUFFER_SIZE cfg) src.read env.chunkResult src.size 0 s0
             env.initialBuf src.size).2.1
        ++ [Event.gpioSet Pin.cs true]
        ++ (write_update_block (LOADER_BUFFER_SIZE cfg)
             (List.replicate (LOADER_BUFFER_SIZE cfg) 0) 13 env.padCompResult).2
        ++ (cdone_pin_wait env.cdoneSample true env.cdoneTimeoutAt).2
        ++ (write_update_block (LOADER_BUFFER_SIZE cfg)
             (List.replicate (LOADER_BUFFER_SIZE cfg) 0) 7 env.padActResult).2
        ++ [Event.gpioSet Pin.cs true, Event.csRouteHardware, Event.bufferFree,
            Event.busRelease, Event.deviceRemove])) := by
  have hd : write_update_block (LOADER_BUFFER_SIZE cfg) [0] 1 env.dummyResult
      = (ESP_OK, [Event.semTake, Event.transmit [0], Event.semGive]) := by
    unfold write_update_block
    rw [if_neg (by omega), hdum]
    rfl
  simp only [fpga_loader_load, hadd, hacq, halloc, hd, ne_eq]
  simp [List.append_assoc]

/-- Nat ceiling-division step: removing one `min remaining SIZE` chunk
decreases `ceil(remaining / SIZE)` by exactly one. -/
theorem ceil_div_step (SIZE remaining : Nat) (hS : 1 ≤ SIZE) (hr : 1 ≤ remaining) :
    (remaining + SIZE - 1) / SIZE
      = (remaining - min remaining SIZE + SIZE - 1) / SIZE + 1 := by
  have e1 : remaining + SIZE - 1 = (remaining - 1) + SIZE := by omega
  rw [e1, Nat.add_div_right _ (by omega)]
  rcases Nat.lt_or_ge remaining (SIZE + 1) with h | h
  · have e2 : remaining - min remaining SIZE = 0 := by omega
    rw [e2]
    have h3 : (remaining - 1) / SIZE = 0 := Nat.div_eq_of_lt (by omega)
    have h4 : (0 + SIZE - 1) / SIZE = 0 := Nat.div_eq_of_lt (by omega)
    omega
  · have e2 : remaining - min remaining SIZE + SIZE - 1 = (remaining - 1 - SIZE) + SIZE := by
      omega
    rw [e2, Nat.add_div_right _ (by omega)]
    have h3 : (remaining - 1) / SIZE = (remaining - 1 - SIZE) / SIZE + 1 :=
      Nat.div_eq_sub_div (by omega) (by omega)
    omega

/-- When every read returns exactly the requested count and every transmit
succeeds, the streaming loop transmits `ceil(remaining / SIZE)` chunks,
each of at most `SIZE` bytes, summing to `remaining` bytes. -/
theorem stream_chunks_spec {S : Type} (SIZE : Nat)
    (rd : Nat → S → (Nat × List Nat) × S) (txRes : Nat → Int) (hS : 1 ≤ SIZE)
    (hread : ∀ n s, (rd n s).1.1 = n) (htx : ∀ i, txRes i = ESP_OK) :
    ∀ fuel remaining i s buf, remaining ≤ fuel → buf.length = SIZE →
      (txLens (stream_chunks SIZE rd txRes fuel i s buf remaining).2.1).length
          = (remaining + SIZE - 1) / SIZE
        ∧ (∀ l ∈ txLens (stream_chunks SIZE rd txRes fuel i s buf remaining).2.1, l ≤ SIZE)
        ∧ (txLens (stream_chunks SIZE rd txRes fuel i s buf remaining).2.1).sum = remaining := by
  intro fuel
  induction fuel with
  | zero =>
    intro remaining i s buf hrf hb
    have h0 : remaining = 0 := by omega
    subst h0
    refine ⟨?_, by simp [stream_chunks, txLens], by simp [stream_chunks, txLens]⟩
    simp [stream_chunks, txLens]
    exact (Nat.div_eq_of_lt (by omega)).symm
  | succ fuel ih =>
    intro remaining i s buf hrf hb
    by_cases hr : remaining = 0
    · subst hr
      refine ⟨?_, by simp [stream_chunks, txLens], by simp [stream_chunks, txLens]⟩
      simp [stream_chunks, txLens]
      exact (Nat.div_eq_of_lt (by omega)).symm
    · have hgot : (rd (min remaining SIZE) s).1.1 = min remaining SIZE := hread _ _
      have hchunkS : min remaining SIZE ≤ SIZE := Nat.min_le_right _ _
      have hb2 : (overlay (rd (min remaining SIZE) s).1.2 buf).length = SIZE := by
        rw [overlay_length]; exact hb
      have hw : write_update_block SIZE (overlay (rd (min remaining SIZE) s).1.2 buf)
          (min remaining SIZE) (txRes i)
          = (ESP_OK, [Event.semTake,
              Event.transmit ((overlay (rd (min remaining SIZE) s).1.2 buf).take
                (min remaining SIZE)),
              Event.semGive]) := by
        unfold write_update_block
        rw [if_neg (by omega), htx]
      obtain ⟨ih1, ih2, ih3⟩ := ih (remaining - min remaining SIZE) (i + 1)
        (rd (min remaining SIZE) s).2
        (overlay (rd (min remaining SIZE) s).1.2 buf) (by omega) hb2
      have hlen : ((overlay (rd (min remaining SIZE) s).1.2 buf).take
          (min remaining SIZE)).length = min remaining SIZE := by
        rw [List.length_take, hb2, Nat.min_eq_left hchunkS]
      simp only [stream_chunks, if_neg hr, hgot, hw, ne_eq, not_true_eq_false, if_false,
        List.cons_append, List.nil_append, txLens]
      refine ⟨?_, ?_, ?_⟩
      · rw [List.length_cons, ih1, ceil_div_step SIZE remaining hS (by omega)]
      · intro l hl
        rcases List.mem_cons.mp hl with hl | hl
        · omega
        · exact ih2 l hl
      · rw [List.sum_cons, ih3, hlen]
        omega

theorem load_fst_addFail {S : Type} (cfg : Nat) (src : firmware_source_t S) (s0 : S)
    (env : Env) (hadd : ¬env.addResult = ESP_OK) :
    (fpga_loader_load cfg src s0 env).1 = env.addResult := by
  simp only [fpga_loader_load, ne_eq]
  rw [if_pos hadd]

theorem load_fst_acqFail {S : Type} (cfg : Nat) (src : firmware_source_t S) (s0 : S)
    (env : Env) (hadd : env.addResult = ESP_OK) (hacq : ¬env.acquireResult = ESP_OK) :
    (fpga_loader_load cfg src s0 env).1 = env.acquireResult := by
  simp only [fpga_loader_load, ne_eq]
  rw [if_neg (by simp [hadd]), if_pos hacq]

theorem load_fst_dumFail {S : Type} (cfg : Nat) (src : firmware_source_t S) (s0 : S)
    (env : Env) (hS : 1 ≤ LOADER_BUFFER_SIZE cfg)
    (hadd : env.addResult = ESP_OK) (hacq : env.acquireResult = ESP_OK)
    (hdum : ¬env.dummyResult = ESP_OK) :
    (fpga_loader_load cfg src s0 env).1 = env.dummyResult := by
  have hd1 : (write_update_block (LOADER_BUFFER_SIZE cfg) [0] 1 env.dummyResult).1
      = env.dummyResult := by
    rw [wub_fst, if_neg (by omega)]
  simp only [fpga_loader_load, ne_eq]
  rw [if_neg (by simp [hadd]), if_neg (by simp [hacq]), hd1, if_pos hdum]

theorem load_fst_allocFail {S : Type} (cfg : Nat) (src : firmware_source_t S) (s0 : S)
    (env : Env) (hS : 1 ≤ LOADER_BUFFER_SIZE cfg)
    (hadd : env.addResult = ESP_OK) (hacq : env.acquireResult = ESP_OK)
    (hdum : env.dummyResult = ESP_OK) (hal : env.allocOk = false) :
    (fpga_loader_load cfg src s0 env).1 = ESP_ERR_NO_MEM := by
  have hd1 : (write_update_block (LOADER_BUFFER_SIZE cfg) [0] 1 env.dummyResult).1
      = env.dummyResult := by
    rw [wub_fst, if_neg (by omega)]
  simp only [fpga_loader_load, ne_eq]
  rw [if_neg (by simp [hadd]), if_neg (by simp [hacq]), hd1, if_neg (by simp [hdum]),
    if_pos hal]

theorem load_ok_hyps {S : Type} (cfg : Nat) (src : firmware_source_t S) (s0 : S) (env : Env)
    (hS : 1 ≤ LOADER_BUFFER_SIZE cfg)
    (hres : (fpga_loader_load cfg src s0 env).1 = ESP_OK) :
    env.addResult = ESP_OK ∧ env.acquireResult = ESP_OK ∧ env.dummyResult = ESP_OK
      ∧ env.allocOk = true := by
  by_cases hadd : env.addResult = ESP_OK
  · by_cases hacq : env.acquireResult = ESP_OK
    · by_cases hdum : env.dummyResult = ESP_OK
      · by_cases halloc : env.allocOk = true
        · exact ⟨hadd, hacq, hdum, halloc⟩
        · have hal : env.allocOk = false := by
            revert halloc
            cases env.allocOk <;> simp
          rw [load_fst_allocFail cfg src s0 env hS hadd hacq hdum hal] at hres
          exact absurd hres (by decide)
      · rw [load_fst_dumFail cfg src s0 env hS hadd hacq hdum] at hres
        exact absurd hres hdum
    · rw [load_fst_acqFail cfg src s0 env hadd hacq] at hres
      exact absurd hres hacq
  · rw [load_fst_addFail cfg src s0 env hadd] at hres
    exact absurd hres hadd

theorem countP_set_aux (p : TaskPhase → Bool) :
    ∀ (l : List TaskPhase) (i : Nat) (a b : TaskPhase), l[i]? = some a →
      (l.set i b).countP p + (if p a then 1 else 0)
        = l.countP p + (if p b then 1 else 0) := by
  intro l
  induction l with
  | nil =>
    intro i a b h
    simp at h
  | cons x xs ih =>
    intro i a b h
    cases i with
    | zero =>
      simp at h
      subst h
      simp [List.countP_cons]
      omega
    | succ i =>
      simp at h
      have hx := ih i a b h
      simp [List.countP_cons]
      omega

theorem countP_replicate_idle (n : Nat) :
    (List.replicate n TaskPhase.idle).countP (fun p => decide (p = TaskPhase.holding)) = 0 := by
  induction n with
  | zero => simp
  | succ n ih => simp [List.replicate, List.countP_cons, ih]

theorem arb_step_inv (s t : ArbState) (hstep : ArbStep s t)
    (ih : (s.held = false → countHolding s = 0) ∧ countHolding s ≤ 1) :
    (t.held = false → countHolding t = 0) ∧ countHolding t ≤ 1 := by
  cases hstep with
  | request i h =>
    have hc := countP_set_aux (fun p => decide (p = TaskPhase.holding))
      s.tasks i TaskPhase.idle TaskPhase.waiting h
    simp at hc
    simp only [countHolding] at ih ⊢
    exact ⟨fun hh => hc.trans (ih.1 hh), hc.le.trans ih.2⟩
  | grant i h hfree =>
    have hc := countP_set_aux (fun p => decide (p = TaskPhase.holding))
      s.tasks i TaskPhase.waiting TaskPhase.holding h
    simp at hc
    have h0 := ih.1 hfree
    simp only [countHolding] at h0 ⊢
    refine ⟨fun hh => by simp at hh, ?_⟩
    omega
  | release i h =>
    have hc := countP_set_aux (fun p => decide (p = TaskPhase.holding))
      s.tasks i TaskPhase.holding TaskPhase.idle h
    simp at hc
    have h1 := ih.2
    simp only [countHolding] at h1 ⊢
    refine ⟨fun _ => ?_, ?_⟩ <;> omega

theorem arb_inv (n : Nat) : ∀ s, ArbReachable n s →
    (s.held = false → countHolding s = 0) ∧ countHolding s ≤ 1 := by
  intro s h
  induction h with
  | init =>
    refine ⟨fun _ => ?_, ?_⟩
    · simp [countHolding, countP_replicate_idle]
    · simp [countHolding, countP_replicate_idle]
  | step hr hstep ih =>
    exact arb_step_inv _ _ hstep ih

/-- Claim C4 counterexample: on a 5-byte range with the cursor at 0, `rom_read 10`
returns 0 bytes, not `min(10, remaining) = 5` as the claim states. -/
theorem claim_C4_counterexample :
    (rom_read 10 romWide).1.1 = 0
      ∧ ¬(rom_read 10 romWide).1.1 = min 10 (romWide.size - romWide.pos) := by
  decide

/-- Claim C4 (amended): `rom_read n` returns the full `n` bytes from the internal
cursor and advances it when `pos + n <= size`; when the request would overrun the
range it returns 0 bytes and leaves the context unchanged (not the remaining
`min(n, remaining)` bytes as originally claimed). -/
theorem claim_C4 (n : Nat) (rom : rom_ctx_t) :
    (rom.pos + n ≤ rom.size →
      ((rom_read n rom).1.1 = n
        ∧ (rom_read n rom).1.2 = (rom.data.drop rom.pos).take n
        ∧ (rom_read n rom).2 = { rom with pos := rom.pos + n }))
    ∧ (rom.size < rom.pos + n →
      ((rom_read n rom).1.1 = 0 ∧ (rom_read n rom).2 = rom)) := by
  unfold rom_read
  constructor
  · intro h
    rw [if_neg (by omega)]
    exact ⟨rfl, rfl, rfl⟩
  · intro h
    rw [if_pos h]
    exact ⟨rfl, rfl⟩

/-- Witness for C4: both branches of the amended claim evaluated on concrete inputs. -/
theorem claim_C4_witness :
    ((rom_read 3 romWide).1.1 = 3
      ∧ (rom_read 3 romWide).1.2 = [1, 2, 3]
      ∧ (rom_read 3 romWide).2 = { romWide with pos := 3 })
    ∧ (rom_read 10 { romWide with pos := 3 }).1.1 = 0 := by
  refine ⟨?_, ?_⟩
  · have h := (claim_C4 3 romWide).1 (by decide)
    exact ⟨h.1, h.2.1.trans (by decide), h.2.2.trans (by decide)⟩
  · exact ((claim_C4 10 { romWide with pos := 3 }).2 (by decide)).1

/-- Claim C8 (amended): for the memory-range variant, a null descriptor or a range
with `end <= start` (zero or negative length) makes `fpga_loader_load_from_rom`
return `ESP_ERR_INVALID_ARG` with an empty trace — no configuration step is
performed.  The file variant has no such check (see the counterexample). -/
theorem claim_C8 (cfg : Nat) (env : Env) (bin : Option fpga_bin_t)
    (h : bin = none ∨ ∃ b, bin = some b ∧ b.endAddr ≤ b.startAddr) :
    fpga_loader_load_from_rom cfg env bin = (ESP_ERR_INVALID_ARG, []) := by
  rcases h with h | ⟨b, rfl, hb⟩
  · subst h
    rfl
  · simp only [fpga_loader_load_from_rom]
    rw [if_pos hb]

/-- Witness for C8: the null descriptor and an empty range, both rejected. -/
theorem claim_C8_witness :
    fpga_loader_load_from_rom 4 envAllOk none = (ESP_ERR_INVALID_ARG, [])
      ∧ fpga_loader_load_from_rom 4 envAllOk (some binEmpty) = (ESP_ERR_INVALID_ARG, []) :=
  ⟨claim_C8 4 envAllOk none (Or.inl rfl),
   claim_C8 4 envAllOk (some binEmpty) (Or.inr ⟨binEmpty, rfl, by decide⟩)⟩

/-- Claim C8 counterexample: an existing but empty file is an empty source
descriptor, yet `fpga_loader_load_from_file` does not return `ESP_ERR_INVALID_ARG`:
it runs the full configuration sequence (the reset line is driven low) and, with
CDONE high, returns `ESP_OK`. -/
theorem claim_C8_counterexample :
    (fpga_loader_load_from_file 4 envAllOk fsEmpty).1 = ESP_OK
      ∧ ¬(fpga_loader_load_from_file 4 envAllOk fsEmpty).1 = ESP_ERR_INVALID_ARG
      ∧ Event.gpioSet Pin.creset false ∈ (fpga_loader_load_from_file 4 envAllOk fsEmpty).2 := by
  decide

/-- Claim C1 (code-bug evidence): a source reporting 100 bytes whose first read
returns only 10 of the 16 requested, with every SPI operation succeeding and CDONE
reading high.  The claim says `load` returns `SourceReadMismatch` (`ESP_FAIL`) and
issues no further transmissions after that chunk.  The code does not transmit the
short chunk, but it transmits the 13-byte and 7-byte zero padding afterwards
(transaction lengths `[1, 13, 7]`; the 1 is the pre-stream dummy byte) and returns
`ESP_OK`: the `ESP_FAIL` stored at the streaming break is overwritten at line 172
by the CDONE poll result. -/
theorem claim_C1 :
    (fpga_loader_load 4 shortSrc () envAllOk).1 = ESP_OK
      ∧ ¬(fpga_loader_load 4 shortSrc () envAllOk).1 = ESP_FAIL
      ∧ Event.sourceRead 16 10 ∈ (fpga_loader_load 4 shortSrc () envAllOk).2
      ∧ txLens (fpga_loader_load 4 shortSrc () envAllOk).2 = [1, 13, 7] := by
  decide

/-- Claim C9: in every reachable state of the bus arbiter, at most one caller
holds the token — `acquire` is never granted to a second caller while a first
caller holds it. -/
theorem claim_C9 (n : Nat) (s : ArbState) (h : ArbReachable n s) :
    countHolding s ≤ 1 :=
  (arb_inv n s h).2

/-- Witness for C9: a state reached by request, grant, request, in which one task
holds the token while another waits. -/
theorem claim_C9_witness :
    countHolding { held := true, tasks := [TaskPhase.holding, TaskPhase.waiting] } ≤ 1 := by
  refine claim_C9 2 _ ?_
  have h0 : ArbReachable 2 { held := false, tasks := [TaskPhase.idle, TaskPhase.idle] } :=
    ArbReachable.init
  have h1 : ArbReachable 2 { held := false, tasks := [TaskPhase.waiting, TaskPhase.idle] } :=
    ArbReachable.step h0 (ArbStep.request _ 0 rfl)
  have h2 : ArbReachable 2 { held := true, tasks := [TaskPhase.holding, TaskPhase.idle] } :=
    ArbReachable.step h1 (ArbStep.grant _ 0 rfl rfl)
  exact ArbReachable.step h2 (ArbStep.request _ 1 rfl)

/-- Claim C10: the results of the completion-phase and the activation-phase
padding transmissions are discarded — changing them changes neither the value
`load` returns nor any event of its trace. -/
theorem claim_C10 {S : Type} (cfg : Nat) (src : firmware_source_t S) (s0 : S) (env : Env)
    (x y : Int) :
    fpga_loader_load cfg src s0 { env with padCompResult := x, padActResult := y }
      = fpga_loader_load cfg src s0 env := by
  obtain ⟨a1, a2, a3, a4, a5, a6, a7, a8, a9, a10⟩ := env
  simp only [fpga_loader_load, wub_events]

theorem cdone_wait_ok (sampleAt : Nat → Bool) (timeoutAt : Nat)
    (h : (cdone_pin_wait sampleAt true timeoutAt).1 = ESP_OK) :
    ∃ pre, (cdone_pin_wait sampleAt true timeoutAt).2 = pre ++ [Event.sample true] := by
  unfold cdone_pin_wait at h ⊢
  exact cdone_go_ok sampleAt true timeoutAt 0 h

theorem cdone_wait_timeout (sampleAt : Nat → Bool) (timeoutAt : Nat)
    (h : ∀ i, i ≤ timeoutAt → sampleAt i = false) :
    (cdone_pin_wait sampleAt true timeoutAt).1 = ESP_ERR_TIMEOUT := by
  unfold cdone_pin_wait
  exact cdone_go_timeout sampleAt timeoutAt 0 (fun j h1 h2 => h j (by omega))

theorem cdone_wait_samples (sampleAt : Nat → Bool) (value : Bool) (timeoutAt : Nat) :
    ∀ e ∈ (cdone_pin_wait sampleAt value timeoutAt).2, ∃ b, e = Event.sample b := by
  unfold cdone_pin_wait
  exact cdone_go_samples sampleAt value timeoutAt 0

/-- Completion-phase padding events when the buffer holds at least 13 bytes. -/
theorem pad13_events (cfg : Nat) (r : Int) (h : 13 ≤ LOADER_BUFFER_SIZE cfg) :
    (write_update_block (LOADER_BUFFER_SIZE cfg)
        (List.replicate (LOADER_BUFFER_SIZE cfg) 0) 13 r).2
      = [Event.semTake, Event.transmit (List.replicate 13 0), Event.semGive] := by
  rw [wub_events, if_neg (by omega), List.take_replicate, Nat.min_eq_left h]

/-- Activation-phase padding events when the buffer holds at least 7 bytes. -/
theorem pad7_events (cfg : Nat) (r : Int) (h : 7 ≤ LOADER_BUFFER_SIZE cfg) :
    (write_update_block (LOADER_BUFFER_SIZE cfg)
        (List.replicate (LOADER_BUFFER_SIZE cfg) 0) 7 r).2
      = [Event.semTake, Event.transmit (List.replicate 7 0), Event.semGive] := by
  rw [wub_events, if_neg (by omega), List.take_replicate, Nat.min_eq_left h]

/-- Claim C2: if the completion pin never reaches the asserted level within the
poll timeout, `load` returns `ESP_ERR_TIMEOUT` (`CompletionTimeout`), and the
activation padding and the hand-off (chip-select back to hardware routing, buffer
free, bus release, device deregistration) still execute before returning. -/
theorem claim_C2 {S : Type} (cfg : Nat) (src : firmware_source_t S) (s0 : S) (env : Env)
    (hcfg : 4 ≤ cfg)
    (hadd : env.addResult = ESP_OK) (hacq : env.acquireResult = ESP_OK)
    (hdum : env.dummyResult = ESP_OK) (halloc : env.allocOk = true)
    (hpin : ∀ i, i ≤ env.cdoneTimeoutAt → env.cdoneSample i = false) :
    (fpga_loader_load cfg src s0 env).1 = ESP_ERR_TIMEOUT
      ∧ ∃ pre, (fpga_loader_load cfg src s0 env).2 =
          pre ++ [Event.semTake, Event.transmit (List.replicate 7 0), Event.semGive,
                  Event.gpioSet Pin.cs true, Event.csRouteHardware, Event.bufferFree,
                  Event.busRelease, Event.deviceRemove] := by
  have hS : 1 ≤ LOADER_BUFFER_SIZE cfg := by unfold LOADER_BUFFER_SIZE; omega
  have hdecomp := load_decomp cfg src s0 env hadd hacq hdum hS halloc
  have htime := cdone_wait_timeout env.cdoneSample env.cdoneTimeoutAt hpin
  have hpa := pad7_events cfg env.padActResult (by unfold LOADER_BUFFER_SIZE; omega)
  rw [hdecomp]
  refine ⟨htime, ?_⟩
  refine ⟨[Event.deviceAdd, Event.busAcquire,
      Event.gpioSet Pin.creset false, Event.gpioSet Pin.cs false, Event.csRouteManual,
      Event.delayTicks 1, Event.gpioSet Pin.creset true, Event.delayTicks 2,
      Event.gpioSet Pin.cs true, Event.semTake, Event.transmit [0], Event.semGive,
      Event.gpioSet Pin.cs false, Event.bufferAlloc]
    ++ (stream_chunks (LOADER_BUFFER_SIZE cfg) src.read env.chunkResult src.size 0 s0
         env.initialBuf src.size).2.1
    ++ [Event.gpioSet Pin.cs true]
    ++ (write_update_block (LOADER_BUFFER_SIZE cfg)
         (List.replicate (LOADER_BUFFER_SIZE cfg) 0) 13 env.padCompResult).2
    ++ (cdone_pin_wait env.cdoneSample true env.cdoneTimeoutAt).2, ?_⟩
  rw [hpa]
  simp [List.append_assoc]

/-- Claim C7: in every session that reaches the completion phase, the sequencer
raises chip-select and transmits 13 zero bytes (104 >= 100 clock edges) before
polling the completion pin, then transmits 7 more zero bytes (56 >= 49 clock
edges) in the activation phase regardless of the poll outcome.  `4 <= cfg` makes
the configured buffer hold the 13-byte padding block. -/
theorem claim_C7 {S : Type} (cfg : Nat) (src : firmware_source_t S) (s0 : S) (env : Env)
    (hcfg : 4 ≤ cfg)
    (hadd : env.addResult = ESP_OK) (hacq : env.acquireResult = ESP_OK)
    (hdum : env.dummyResult = ESP_OK) (halloc : env.allocOk = true) :
    ∃ pre samps,
      (fpga_loader_load cfg src s0 env).2 =
          pre ++ [Event.gpioSet Pin.cs true,
                  Event.semTake, Event.transmit (List.replicate 13 0), Event.semGive]
            ++ samps
            ++ [Event.semTake, Event.transmit (List.replicate 7 0), Event.semGive,
                Event.gpioSet Pin.cs true, Event.csRouteHardware, Event.bufferFree,
                Event.busRelease, Event.deviceRemove]
        ∧ (∀ e ∈ samps, ∃ b, e = Event.sample b)
        ∧ 100 ≤ 8 * (List.replicate 13 (0 : Nat)).length
        ∧ 49 ≤ 8 * (List.replicate 7 (0 : Nat)).length := by
  have hS : 1 ≤ LOADER_BUFFER_SIZE cfg := by unfold LOADER_BUFFER_SIZE; omega
  have hdecomp := load_decomp cfg src s0 env hadd hacq hdum hS halloc
  have hpc := pad13_events cfg env.padCompResult (by unfold LOADER_BUFFER_SIZE; omega)
  have hpa := pad7_events cfg env.padActResult (by unfold LOADER_BUFFER_SIZE; omega)
  refine ⟨[Event.deviceAdd, Event.busAcquire,
      Event.gpioSet Pin.creset false, Event.gpioSet Pin.cs false, Event.csRouteManual,
      Event.delayTicks 1, Event.gpioSet Pin.creset true, Event.delayTicks 2,
      Event.gpioSet Pin.cs true, Event.semTake, Event.transmit [0], Event.semGive,
      Event.gpioSet Pin.cs false, Event.bufferAlloc]
    ++ (stream_chunks (LOADER_BUFFER_SIZE cfg) src.read env.chunkResult src.size 0 s0
         env.initialBuf src.size).2.1,
    (cdone_pin_wait env.cdoneSample true env.cdoneTimeoutAt).2, ?_, ?_, ?_, ?_⟩
  · rw [hdecomp, hpc, hpa]
    simp [List.append_assoc]
  · exact cdone_wait_samples env.cdoneSample true env.cdoneTimeoutAt
  · simp
  · simp

/-- Claim C6: whenever `load` returns success, the completion pin was sampled at
the asserted level — the trace ends with a high CDONE sample followed by the
activation padding transmission and the hand-off, so the asserted sample precedes
the activation padding. -/
theorem claim_C6 {S : Type} (cfg : Nat) (src : firmware_source_t S) (s0 : S) (env : Env)
    (hcfg : 2 ≤ cfg)
    (hres : (fpga_loader_load cfg src s0 env).1 = ESP_OK) :
    ∃ pre, (fpga_loader_load cfg src s0 env).2 =
        pre ++ [Event.sample true,
                Event.semTake, Event.transmit (List.replicate 7 0), Event.semGive,
                Event.gpioSet Pin.cs true, Event.csRouteHardware, Event.bufferFree,
                Event.busRelease, Event.deviceRemove] := by
  have hS : 1 ≤ LOADER_BUFFER_SIZE cfg := by unfold LOADER_BUFFER_SIZE; omega
  obtain ⟨hadd, hacq, hdum, halloc⟩ := load_ok_hyps cfg src s0 env hS hres
  have hdecomp := load_decomp cfg src s0 env hadd hacq hdum hS halloc
  have hok : (cdone_pin_wait env.cdoneSample true env.cdoneTimeoutAt).1 = ESP_OK := by
    rw [hdecomp] at hres
    exact hres
  obtain ⟨spre, hsp⟩ := cdone_wait_ok env.cdoneSample env.cdoneTimeoutAt hok
  have hpa := pad7_events cfg env.padActResult (by unfold LOADER_BUFFER_SIZE; omega)
  refine ⟨[Event.deviceAdd, Event.busAcquire,
      Event.gpioSet Pin.creset false, Event.gpioSet Pin.cs false, Event.csRouteManual,
      Event.delayTicks 1, Event.gpioSet Pin.creset true, Event.delayTicks 2,
      Event.gpioSet Pin.cs true, Event.semTake, Event.transmit [0], Event.semGive,
      Event.gpioSet Pin.cs false, Event.bufferAlloc]
    ++ (stream_chunks (LOADER_BUFFER_SIZE cfg) src.read env.chunkResult src.size 0 s0
         env.initialBuf src.size).2.1
    ++ [Event.gpioSet Pin.cs true]
    ++ (write_update_block (LOADER_BUFFER_SIZE cfg)
         (List.replicate (LOADER_BUFFER_SIZE cfg) 0) 13 env.padCompResult).2
    ++ spre, ?_⟩
  rw [hdecomp, hsp, hpa]
  simp [List.append_assoc]

/-- Claim C3: when every read returns exactly the requested count and every
transmission succeeds, the streaming phase issues exactly `ceil(L / C)` chunk
transmissions (`L` the source length, `C = LOADER_BUFFER_SIZE cfg`), each of at
most `C` bytes, summing to exactly `L` bytes; those streaming events are the
middle segment of the load trace. -/
theorem claim_C3 {S : Type} (cfg : Nat) (src : firmware_source_t S) (s0 : S) (env : Env)
    (hcfg : 1 ≤ cfg)
    (hadd : env.addResult = ESP_OK) (hacq : env.acquireResult = ESP_OK)
    (hdum : env.dummyResult = ESP_OK) (halloc : env.allocOk = true)
    (hbuf : env.initialBuf.length = LOADER_BUFFER_SIZE cfg)
    (hread : ∀ n s, (src.read n s).1.1 = n)
    (htx : ∀ i, env.chunkResult i = ESP_OK) :
    (txLens (stream_chunks (LOADER_BUFFER_SIZE cfg) src.read env.chunkResult src.size 0 s0
          env.initialBuf src.size).2.1).length
        = (src.size + LOADER_BUFFER_SIZE cfg - 1) / LOADER_BUFFER_SIZE cfg
      ∧ (∀ l ∈ txLens (stream_chunks (LOADER_BUFFER_SIZE cfg) src.read env.chunkResult
            src.size 0 s0 env.initialBuf src.size).2.1, l ≤ LOADER_BUFFER_SIZE cfg)
      ∧ (txLens (stream_chunks (LOADER_BUFFER_SIZE cfg) src.read env.chunkResult src.size 0 s0
            env.initialBuf src.size).2.1).sum = src.size
      ∧ ∃ pre suf, (fpga_loader_load cfg src s0 env).2
          = pre ++ (stream_chunks (LOADER_BUFFER_SIZE cfg) src.read env.chunkResult src.size
              0 s0 env.initialBuf src.size).2.1 ++ suf := by
  have hS : 1 ≤ LOADER_BUFFER_SIZE cfg := by unfold LOADER_BUFFER_SIZE; omega
  obtain ⟨h1, h2, h3⟩ := stream_chunks_spec (LOADER_BUFFER_SIZE cfg) src.read env.chunkResult
    hS hread htx src.size src.size 0 s0 env.initialBuf le_rfl hbuf
  refine ⟨h1, h2, h3, ?_⟩
  rw [load_decomp cfg src s0 env hadd hacq hdum hS halloc]
  refine ⟨[Event.deviceAdd, Event.busAcquire,
      Event.gpioSet Pin.creset false, Event.gpioSet Pin.cs false, Event.csRouteManual,
      Event.delayTicks 1, Event.gpioSet Pin.creset true, Event.delayTicks 2,
      Event.gpioSet Pin.cs true, Event.semTake, Event.transmit [0], Event.semGive,
      Event.gpioSet Pin.cs false, Event.bufferAlloc],
    [Event.gpioSet Pin.cs true]
      ++ (write_update_block (LOADER_BUFFER_SIZE cfg)
           (List.replicate (LOADER_BUFFER_SIZE cfg) 0) 13 env.padCompResult).2
      ++ (cdone_pin_wait env.cdoneSample true env.cdoneTimeoutAt).2
      ++ (write_update_block (LOADER_BUFFER_SIZE cfg)
           (List.replicate (LOADER_BUFFER_SIZE cfg) 0) 7 env.padActResult).2
      ++ [Event.gpioSet Pin.cs true, Event.csRouteHardware, Event.bufferFree,
          Event.busRelease, Event.deviceRemove], ?_⟩
  simp [List.append_assoc]

/-- Claim C5: once device registration and bus acquisition have succeeded, every
exit path of `load` ends by releasing the bus and then deregistering the transient
device, and the transfer buffer is freed exactly when it was allocated. -/
theorem claim_C5 {S : Type} (cfg : Nat) (src : firmware_source_t S) (s0 : S) (env : Env)
    (hadd : env.addResult = ESP_OK) (hacq : env.acquireResult = ESP_OK) :
    (∃ pre, (fpga_loader_load cfg src s0 env).2
        = pre ++ [Event.busRelease, Event.deviceRemove])
      ∧ (Event.bufferAlloc ∈ (fpga_loader_load cfg src s0 env).2
          ↔ Event.bufferFree ∈ (fpga_loader_load cfg src s0 env).2) := by
  by_cases hd : (write_update_block (LOADER_BUFFER_SIZE cfg) [0] 1 env.dummyResult).1 = ESP_OK
  · have hS : 1 ≤ LOADER_BUFFER_SIZE cfg := by
      rw [wub_fst] at hd
      by_cases hlt : LOADER_BUFFER_SIZE cfg < 1
      · rw [if_pos hlt] at hd
        exact absurd hd (by decide)
      · omega
    have hdum : env.dummyResult = ESP_OK := by
      rw [wub_fst, if_neg (by omega)] at hd
      exact hd
    by_cases halloc : env.allocOk = true
    · rw [load_decomp cfg src s0 env hadd hacq hdum hS halloc]
      constructor
      · refine ⟨[Event.deviceAdd, Event.busAcquire,
          Event.gpioSet Pin.creset false, Event.gpioSet Pin.cs false, Event.csRouteManual,
          Event.delayTicks 1, Event.gpioSet Pin.creset true, Event.delayTicks 2,
          Event.gpioSet Pin.cs true, Event.semTake, Event.transmit [0], Event.semGive,
          Event.gpioSet Pin.cs false, Event.bufferAlloc]
          ++ (stream_chunks (LOADER_BUFFER_SIZE cfg) src.read env.chunkResult src.size 0 s0
               env.initialBuf src.size).2.1
          ++ [Event.gpioSet Pin.cs true]
          ++ (write_update_block (LOADER_BUFFER_SIZE cfg)
               (List.replicate (LOADER_BUFFER_SIZE cfg) 0) 13 env.padCompResult).2
          ++ (cdone_pin_wait env.cdoneSample true env.cdoneTimeoutAt).2
          ++ (write_update_block (LOADER_BUFFER_SIZE cfg)
               (List.replicate (LOADER_BUFFER_SIZE cfg) 0) 7 env.padActResult).2
          ++ [Event.gpioSet Pin.cs true, Event.csRouteHardware, Event.bufferFree], ?_⟩
        simp [List.append_assoc]
      · constructor
        · intro
          simp
        · intro
          simp
    · have hal : env.allocOk = false := by
        revert halloc
        cases env.allocOk <;> simp
      have heq : fpga_loader_load cfg src s0 env
          = (ESP_ERR_NO_MEM,
             [Event.deviceAdd, Event.busAcquire,
              Event.gpioSet Pin.creset false, Event.gpioSet Pin.cs false, Event.csRouteManual,
              Event.delayTicks 1, Event.gpioSet Pin.creset true, Event.delayTicks 2,
              Event.gpioSet Pin.cs true]
             ++ (write_update_block (LOADER_BUFFER_SIZE cfg) [0] 1 env.dummyResult).2
             ++ [Event.gpioSet Pin.cs false, Event.busRelease, Event.deviceRemove]) := by
        simp only [fpga_loader_load, ne_eq]
        rw [if_neg (by simp [hadd]), if_neg (by simp [hacq]), if_neg (by simp [hd]),
          if_pos hal]
      rw [heq]
      constructor
      · refine ⟨[Event.deviceAdd, Event.busAcquire,
          Event.gpioSet Pin.creset false, Event.gpioSet Pin.cs false, Event.csRouteManual,
          Event.delayTicks 1, Event.gpioSet Pin.creset true, Event.delayTicks 2,
          Event.gpioSet Pin.cs true]
          ++ (write_update_block (LOADER_BUFFER_SIZE cfg) [0] 1 env.dummyResult).2
          ++ [Event.gpioSet Pin.cs false], ?_⟩
        simp [List.append_assoc]
      · rw [wub_events, if_neg (by omega)]
        constructor <;> intro h <;> simp at h
  · have heq : fpga_loader_load cfg src s0 env
        = ((write_update_block (LOADER_BUFFER_SIZE cfg) [0] 1 env.dummyResult).1,
           [Event.deviceAdd, Event.busAcquire,
            Event.gpioSet Pin.creset false, Event.gpioSet Pin.cs false, Event.csRouteManual,
            Event.delayTicks 1, Event.gpioSet Pin.creset true, Event.delayTicks 2,
            Event.gpioSet Pin.cs true]
           ++ (write_update_block (LOADER_BUFFER_SIZE cfg) [0] 1 env.dummyResult).2
           ++ [Event.busRelease, Event.deviceRemove]) := by
      simp only [fpga_loader_load, ne_eq]
      rw [if_neg (by simp [hadd]), if_neg (by simp [hacq]), if_pos hd]
    rw [heq]
    constructor
    · exact ⟨[Event.deviceAdd, Event.busAcquire,
        Event.gpioSet Pin.creset false, Event.gpioSet Pin.cs false, Event.csRouteManual,
        Event.delayTicks 1, Event.gpioSet Pin.creset true, Event.delayTicks 2,
        Event.gpioSet Pin.cs true]
        ++ (write_update_block (LOADER_BUFFER_SIZE cfg) [0] 1 env.dummyResult).2,
        by simp [List.append_assoc]⟩
    · rw [wub_events]
      by_cases hlt : LOADER_BUFFER_SIZE cfg < 1
      · rw [if_pos hlt]
        constructor <;> intro h <;> simp at h
      · rw [if_neg hlt]
        constructor <;> intro h <;> simp at h

/-- Witness for C2: a zero-length source with a CDONE pin that never asserts. -/
theorem claim_C2_witness :
    (fpga_loader_load 4 srcNil () envTimeout).1 = ESP_ERR_TIMEOUT
      ∧ ∃ pre, (fpga_loader_load 4 srcNil () envTimeout).2 =
          pre ++ [Event.semTake, Event.transmit (List.replicate 7 0), Event.semGive,
                  Event.gpioSet Pin.cs true, Event.csRouteHardware, Event.bufferFree,
                  Event.busRelease, Event.deviceRemove] :=
  claim_C2 4 srcNil () envTimeout (by decide) rfl rfl rfl rfl (fun i _ => rfl)

/-- Witness for C3: a 6-byte source with a 4-byte buffer, giving chunks of 4 and 2. -/
theorem claim_C3_witness :
    (txLens (stream_chunks (LOADER_BUFFER_SIZE 1) srcSix.read envFour.chunkResult srcSix.size
          0 () envFour.initialBuf srcSix.size).2.1).length
        = (srcSix.size + LOADER_BUFFER_SIZE 1 - 1) / LOADER_BUFFER_SIZE 1
      ∧ (∀ l ∈ txLens (stream_chunks (LOADER_BUFFER_SIZE 1) srcSix.read envFour.chunkResult
            srcSix.size 0 () envFour.initialBuf srcSix.size).2.1, l ≤ LOADER_BUFFER_SIZE 1)
      ∧ (txLens (stream_chunks (LOADER_BUFFER_SIZE 1) srcSix.read envFour.chunkResult
            srcSix.size 0 () envFour.initialBuf srcSix.size).2.1).sum = srcSix.size
      ∧ ∃ pre suf, (fpga_loader_load 1 srcSix () envFour).2
          = pre ++ (stream_chunks (LOADER_BUFFER_SIZE 1) srcSix.read envFour.chunkResult
              srcSix.size 0 () envFour.initialBuf srcSix.size).2.1 ++ suf :=
  claim_C3 1 srcSix () envFour (by decide) rfl rfl rfl rfl (by decide)
    (fun n s => rfl) (fun i => rfl)

/-- Witness for C5: a concrete session past bus acquisition. -/
theorem claim_C5_witness :
    (∃ pre, (fpga_loader_load 4 srcNil () envTimeout).2
        = pre ++ [Event.busRelease, Event.deviceRemove])
      ∧ (Event.bufferAlloc ∈ (fpga_loader_load 4 srcNil () envTimeout).2
          ↔ Event.bufferFree ∈ (fpga_loader_load 4 srcNil () envTimeout).2) :=
  claim_C5 4 srcNil () envTimeout rfl rfl

/-- Witness for C6: a successful load with CDONE high at the first poll. -/
theorem claim_C6_witness :
    ∃ pre, (fpga_loader_load 2 srcNil () envSmall).2 =
        pre ++ [Event.sample true,
                Event.semTake, Event.transmit (List.replicate 7 0), Event.semGive,
                Event.gpioSet Pin.cs true, Event.csRouteHardware, Event.bufferFree,
                Event.busRelease, Event.deviceRemove] :=
  claim_C6 2 srcNil () envSmall (by decide) (by decide)

/-- Witness for C7: a concrete session reaching the completion phase. -/
theorem claim_C7_witness :
    ∃ pre samps,
      (fpga_loader_load 4 shortSrc () envAllOk).2 =
          pre ++ [Event.gpioSet Pin.cs true,
                  Event.semTake, Event.transmit (List.replicate 13 0), Event.semGive]
            ++ samps
            ++ [Event.semTake, Event.transmit (List.replicate 7 0), Event.semGive,
                Event.gpioSet Pin.cs true, Event.csRouteHardware, Event.bufferFree,
                Event.busRelease, Event.deviceRemove]
        ∧ (∀ e ∈ samps, ∃ b, e = Event.sample b)
        ∧ 100 ≤ 8 * (List.replicate 13 (0 : Nat)).length
        ∧ 49 ≤ 8 * (List.replicate 7 (0 : Nat)).length :=
  claim_C7 4 shortSrc () envAllOk (by decide) rfl rfl rfl rfl

end Ice40
